import Mathlib

/-!
Shallow embedding of the watchcount scraper (`scraper.py`): the listing
data model, the page parser, the dict-based merge used by `scrape`, the
tenacity-decorated `WatchcountFetcher.fetch` retry machinery, the
crawl-mode rate governor (`asyncio.Semaphore(3)` with deferred release),
and the `main` error-surfacing path.
-/

namespace Webstore

/-- One extracted record representing a remote marketplace item: the
`Listing` dataclass of `scraper.py`. All fields are strings. -/
structure Listing where
  id : String
  title : String
  url : String
  price : String
  watch_count : String
  image_url : String
  deriving DecidableEq, Repr

/-- The title anchor a row's `.resultTitle a` selector yields: its
optional `href` attribute and its stripped text. -/
structure TitleTag where
  href : Option String
  text : String
  deriving DecidableEq, Repr

/-- The image tag a row's `img` selector yields: its optional `src`. -/
structure ImgTag where
  src : Option String
  deriving DecidableEq, Repr

/-- One `.resultRow` as the selectors expose it to `parse_listings`:
each of the four sub-selections may be absent (`select_one` returning
`None`). The `price` and `watch` components carry their stripped text. -/
structure Row where
  title : Option TitleTag
  price : Option String
  watch : Option String
  img : Option ImgTag
  deriving DecidableEq, Repr

/-- Python `str.split(sep)` for a one-character separator: the pieces
between occurrences of `sep`, empty pieces kept; the empty input gives
the one-element list `[[]]`, so the result is never empty. -/
def splitOnChar (sep : Char) : List Char → List (List Char)
  | [] => [[]]
  | c :: rest =>
    if c = sep then [] :: splitOnChar sep rest
    else
      match splitOnChar sep rest with
      | [] => [[c]]
      | p :: ps => (c :: p) :: ps

/-- The identifier extraction `url.split("/")[-1].split("?")[0]` of
`parse_listings`. Both splits return at least one piece, so the two
indexings always find an element; the empty url yields the empty id. -/
def itemId (url : String) : String :=
  String.mk (((splitOnChar '?' ((splitOnChar '/' url.data).getLastD [])).headD []))

/-- The `Listing` built at lines 92-101 of `scraper.py` from a row whose
title, price and image tags are all present: `url` is the anchor's
`href` defaulted to `""`, `id` is extracted from that url, and a missing
watch tag yields an empty `watch_count`. -/
def rowListing (t : TitleTag) (price : String) (watch : Option String)
    (im : ImgTag) : Listing :=
  { id := itemId (t.href.getD "")
    title := t.text
    url := t.href.getD ""
    price := price
    watch_count := watch.getD ""
    image_url := im.src.getD "" }

/-- The row loop of `parse_listings`: a row missing its title, price or
image tag is skipped (`continue`); every other row appends one listing.
The function is total, so parsing never fails, on any row sequence. -/
def parse_listings : List Row → List Listing
  | [] => []
  | row :: rest =>
    match row.title, row.price, row.img with
    | some t, some p, some im => rowListing t p row.watch im :: parse_listings rest
    | none, _, _ => parse_listings rest
    | some _, none, _ => parse_listings rest
    | some _, some _, none => parse_listings rest

/-- Python `dict` assignment `listings[listing.id] = listing`: when the
key is already present its stored value is replaced in place (dicts keep
the original insertion position), otherwise the pair is appended. -/
def insertListing (m : List Listing) (l : Listing) : List Listing :=
  if m.any (fun x => x.id == l.id) then
    m.map (fun x => if x.id == l.id then l else x)
  else m ++ [l]

/-- Merging one parsed page into the dict: the inner
`for listing in parse_listings(html): listings[listing.id] = listing`. -/
def mergePage (m : List Listing) (page : List Listing) : List Listing :=
  page.foldl insertListing m

/-- Lookup of the entry stored under key `i`. -/
def lookupId (m : List Listing) (i : String) : Option Listing :=
  m.find? (fun x => x.id == i)

/-- The key sequence of the dict. -/
def ids (m : List Listing) : List String :=
  m.map (fun x => x.id)

/-- First-some choice, written out so proofs can case on it directly. -/
def orElseO (a b : Option Listing) : Option Listing :=
  match a with
  | some x => some x
  | none => b

/-- The last listing carrying id `i` in a processing-ordered sequence:
a later match shadows every earlier one. -/
def lastWithId : List Listing → String → Option Listing
  | [], _ => none
  | l :: rest, i =>
    orElseO (lastWithId rest i) (if l.id = i then some l else none)

/-- The offline/sample branch of `scrape` (lines 108-114): pages
`page1.html` … `pageN.html` are read in fixed index order, parsed, and
merged into the dict; `sample i` stands for the rows the selector yields
for `page{i}.html`. Being a function of `sample` and `pages`, the
result is deterministic for fixed sample contents. -/
def scrapeOffline (sample : Nat → List Row) (pages : Nat) : List Listing :=
  (List.range pages).foldl
    (fun m i => mergePage m (parse_listings (sample (i + 1)))) []

/-- All listings the offline run produces, in processing order: page 1's
parsed rows, then page 2's, and so on. -/
def processedListings (sample : Nat → List Row) (pages : Nat) : List Listing :=
  ((List.range pages).map (fun i => parse_listings (sample (i + 1)))).flatten

/-- The two execution modes of the fetcher. -/
inductive Mode
  | batch
  | crawl
  deriving DecidableEq, Repr

/-- One HTTP response as `fetch` observes it: the status code, the raw
`Retry-After` header value when present, and the body text. -/
structure Resp where
  status : Nat
  retryAfter : Option String
  body : String
  deriving DecidableEq, Repr

/-- Digit run continuation for `pyInt`: base-10 digits in which a single
underscore may stand between two digits (Python's literal grouping). -/
def pyDigitsCore (acc : Nat) : List Char → Option Nat
  | [] => some acc
  | '_' :: c :: rest =>
    if c.isDigit then pyDigitsCore (acc * 10 + (c.toNat - 48)) rest else none
  | c :: rest =>
    if c.isDigit then pyDigitsCore (acc * 10 + (c.toNat - 48)) rest else none

/-- Digit run for `pyInt`: nonempty and starting with a digit. -/
def pyDigitsRun : List Char → Option Nat
  | [] => none
  | c :: rest =>
    if c.isDigit then pyDigitsCore (c.toNat - 48) rest else none

/-- ASCII whitespace Python `str.strip()` removes. -/
def isPyWhitespace (c : Char) : Bool :=
  c = ' ' || c = '\t' || c = '\n' || c = '\r' || c = '\x0b' || c = '\x0c'

/-- Python `str.strip()`: leading and trailing whitespace removed. -/
def stripChars (cs : List Char) : List Char :=
  ((cs.dropWhile isPyWhitespace).reverse.dropWhile isPyWhitespace).reverse

/-- Python `int(s)` on a string: surrounding whitespace is stripped, an
optional sign precedes a base-10 digit run; any other shape raises
`ValueError`, modelled as `none`. -/
def pyInt (s : String) : Option Int :=
  match stripChars s.data with
  | '+' :: rest => (pyDigitsRun rest).map Int.ofNat
  | '-' :: rest => (pyDigitsRun rest).map (fun n => -(n : Int))
  | rest => (pyDigitsRun rest).map Int.ofNat

/-- The exceptions that can escape one call to the decorated `fetch`:
`tenacity.RetryError` after five failed attempts, aiohttp's
`ClientResponseError` from `raise_for_status`, and the `ValueError` an
unparseable `Retry-After` header makes `int` raise. A bare
`RuntimeError` never escapes: tenacity either retries it or wraps the
fifth one in `RetryError`. -/
inductive FetchErr
  | retryError
  | clientResponseError (status : Nat)
  | valueError
  deriving DecidableEq, Repr

instance {ε α : Type _} [DecidableEq ε] [DecidableEq α] : DecidableEq (Except ε α) := fun a b =>
  match a, b with
  | Except.ok x, Except.ok y =>
    if h : x = y then Decidable.isTrue (by rw [h])
    else Decidable.isFalse (by simp [h])
  | Except.error x, Except.error y =>
    if h : x = y then Decidable.isTrue (by rw [h])
    else Decidable.isFalse (by simp [h])
  | Except.ok _, Except.error _ => Decidable.isFalse (by simp)
  | Except.error _, Except.ok _ => Decidable.isFalse (by simp)

/-- Observable trace of one call to the decorated `fetch`: its outcome,
how many attempts ran, how many semaphore acquisitions and deferred
release schedulings happened, the `asyncio.sleep(retry_after)` durations
(one per rate-limited attempt, in order), and the tenacity backoff waits
inserted between attempts (in order). -/
structure FetchTrace where
  result : Except FetchErr String
  attemptsUsed : Nat
  acquires : Nat
  schedules : Nat
  serverSleeps : List Int
  backoffs : List Nat
  deriving DecidableEq, Repr

/-- Semaphore acquisitions one attempt performs: line 61-62 runs only in
crawl mode. -/
def attemptAcquires (mode : Mode) : Nat :=
  if mode = Mode.crawl then 1 else 0

/-- tenacity `wait_exponential(multiplier=1, min=1, max=60)` evaluated
after the failed attempt numbered `n` (1-based):
`max(min_, min(multiplier * 2^(n-1), max_))`. -/
def waitExp (n : Nat) : Nat :=
  max 1 (min (2 ^ (n - 1)) 60)

/-- One call to the `@retry`-decorated `fetch`, run against `env`, where
`env n` is the response the n-th attempt (1-based) receives. Every
attempt re-runs the whole body of lines 59-69: the crawl-mode semaphore
acquire, the request, `_handle_rate_limit`, and the `finally` that
schedules the deferred release — so acquisitions happen once per
attempt. On status 429 the header is converted with `int` (a failure
there is a `ValueError`, raised before the sleep and not retried since
it is no `RuntimeError`), then the fetcher sleeps for the converted
duration and raises `RuntimeError`; tenacity retries that while
`stop_after_attempt(5)` still allows another attempt (`fuel` counts the
attempts it still allows), sleeping `waitExp` between attempts, and
raises `RetryError` when attempt 5 fails. Any other status at least 400
raises `ClientResponseError` at once; any other status returns the
body. -/
def runFetchAux (mode : Mode) (env : Nat → Resp) : Nat → Nat → FetchTrace
  | _, 0 => ⟨Except.error FetchErr.retryError, 0, 0, 0, [], []⟩
  | n, fuel + 1 =>
    let acq := attemptAcquires mode
    let r := env n
    if r.status = 429 then
      match pyInt (r.retryAfter.getD "60") with
      | none => ⟨Except.error FetchErr.valueError, 1, acq, acq, [], []⟩
      | some w =>
        if fuel = 0 then
          ⟨Except.error FetchErr.retryError, 1, acq, acq, [w], []⟩
        else
          let rest := runFetchAux mode env (n + 1) fuel
          ⟨rest.result, rest.attemptsUsed + 1, acq + rest.acquires,
            acq + rest.schedules, w :: rest.serverSleeps,
            waitExp n :: rest.backoffs⟩
    else if 400 ≤ r.status then
      ⟨Except.error (FetchErr.clientResponseError r.status), 1, acq, acq, [], []⟩
    else
      ⟨Except.ok r.body, 1, acq, acq, [], []⟩

/-- One outer call to the decorated `fetch`: attempt numbering starts at
1 and `stop_after_attempt(5)` allows five attempts. -/
def runFetch (mode : Mode) (env : Nat → Resp) : FetchTrace :=
  runFetchAux mode env 1 5

/-- State of the crawl-mode rate governor: the semaphore's available
permit count and the pending `call_later` release times. -/
structure GovState where
  avail : Nat
  pending : List Nat
  deriving DecidableEq, Repr

/-- `asyncio.Semaphore(3)`: three permits available, no timers. -/
def initGov : GovState :=
  ⟨3, []⟩

/-- The cooldown `call_later(60, release)` defers a release by. -/
def cooldown : Nat := 60

/-- Move every scheduled release whose timer has expired by time `t`
back into the available pool: the event loop runs due `call_later`
callbacks before a waiting `acquire` can resume. -/
def fireDue (t : Nat) (s : GovState) : GovState :=
  ⟨s.avail + (s.pending.filter (fun r => decide (r ≤ t))).length,
    s.pending.filter (fun r => decide (t < r))⟩

/-- `Semaphore.acquire` observed at time `t`: block (`none`) when no
permit is available after firing due timers, otherwise take one permit.
Blocking is the only non-success outcome; acquire has no failure case. -/
def tryAcquire (t : Nat) (s : GovState) : Option GovState :=
  let s' := fireDue t s
  if s'.avail = 0 then none else some ⟨s'.avail - 1, s'.pending⟩

/-- `call_later(60, release)` issued at time `t`: the permit comes back
only when the timer scheduled for `t + 60` fires. -/
def scheduleRelease (t : Nat) (s : GovState) : GovState :=
  ⟨s.avail, s.pending ++ [t + cooldown]⟩

/-- Fetch every page URL of the run, in order, collecting bodies; the
first fetch error aborts the whole run (`asyncio.gather` propagates the
first failure in batch mode, and the crawl loop stops at the failing
URL), so no body list is produced on any failure. -/
def fetchAll (mode : Mode) : List (Nat → Resp) → Except FetchErr (List String)
  | [] => Except.ok []
  | env :: rest =>
    match (runFetch mode env).result with
    | Except.error e => Except.error e
    | Except.ok body =>
      match fetchAll mode rest with
      | Except.error e => Except.error e
      | Except.ok bodies => Except.ok (body :: bodies)

/-- The network branch of `scrape`: fetched bodies are parsed and merged
into the dict in processing order. `select` abstracts the BeautifulSoup
row selection, an external collaborator mapping a body to its rows. -/
def scrapeNet (select : String → List Row) (mode : Mode)
    (envs : List (Nat → Resp)) : Except FetchErr (List Listing) :=
  match fetchAll mode envs with
  | Except.error e => Except.error e
  | Except.ok bodies =>
    Except.ok (bodies.foldl (fun m body => mergePage m (parse_listings (select body))) [])

/-- Whether `except (aiohttp.ClientError, RuntimeError)` in `main`
catches the error. `RetryError` and `ValueError` are neither. -/
def handledByMain : FetchErr → Bool
  | FetchErr.clientResponseError _ => true
  | FetchErr.retryError => false
  | FetchErr.valueError => false

/-- How a run ends: `emitted` means `write_output` ran and `main`
returned 0; `reported` means the `except` clause printed the error and
returned 1; `crashed` means the exception escaped `main`, so the
interpreter printed the traceback and exited with status 1. -/
inductive RunOutcome
  | emitted (listings : List Listing)
  | reported (e : FetchErr)
  | crashed (e : FetchErr)
  deriving DecidableEq, Repr

/-- The `main` control flow around `scrape` (lines 161-172). -/
def mainRun (select : String → List Row) (mode : Mode)
    (envs : List (Nat → Resp)) : RunOutcome :=
  match scrapeNet select mode envs with
  | Except.ok ls => RunOutcome.emitted ls
  | Except.error e =>
    if handledByMain e then RunOutcome.reported e else RunOutcome.crashed e

/-- Process exit status of each outcome: an uncaught exception also makes
the interpreter exit nonzero. -/
def exitCode : RunOutcome → Nat
  | RunOutcome.emitted _ => 0
  | RunOutcome.reported _ => 1
  | RunOutcome.crashed _ => 1

/-- The listings the run hands to `write_output`, when it reaches it. -/
def emittedListings : RunOutcome → Option (List Listing)
  | RunOutcome.emitted ls => some ls
  | RunOutcome.reported _ => none
  | RunOutcome.crashed _ => none

/-- The error the run surfaces to the user: the formatted `Error: …`
line on the caught path, the traceback on the uncaught path. -/
def reportedError : RunOutcome → Option FetchErr
  | RunOutcome.emitted _ => none
  | RunOutcome.reported e => some e
  | RunOutcome.crashed e => some e

/-- Whether `parse_listings` keeps a row: title, price and image tags
all present. -/
def keptRow (r : Row) : Bool :=
  r.title.isSome && r.price.isSome && r.img.isSome

/-- The listing a kept row yields (defaults are irrelevant: on kept rows
every `getD` hits a `some`). -/
def listingOfRow (r : Row) : Listing :=
  rowListing (r.title.getD ⟨none, ""⟩) (r.price.getD "") r.watch (r.img.getD ⟨none⟩)

theorem orElseO_assoc (a b c : Option Listing) :
    orElseO (orElseO a b) c = orElseO a (orElseO b c) := by
  cases a <;> cases b <;> rfl

theorem lookupId_cons (x : Listing) (xs : List Listing) (i : String) :
    lookupId (x :: xs) i = if x.id = i then some x else lookupId xs i := by
  by_cases h : x.id = i <;> simp [lookupId, List.find?_cons, h]

theorem lookupId_append (a b : List Listing) (i : String) :
    lookupId (a ++ b) i = orElseO (lookupId a i) (lookupId b i) := by
  induction a with
  | nil => simp [lookupId, orElseO]
  | cons x xs ih =>
    by_cases h : x.id = i <;>
      simp [List.cons_append, lookupId_cons, h, ih, orElseO]

theorem any_id_iff (m : List Listing) (j : String) :
    (m.any (fun x => x.id == j)) = true ↔ j ∈ ids m := by
  simp [ids, List.any_eq_true, List.mem_map]

theorem orElseO_none_left (b : Option Listing) : orElseO none b = b := rfl

theorem orElseO_none_right (a : Option Listing) : orElseO a none = a := by
  cases a <;> rfl

theorem lookupId_isSome_iff (m : List Listing) (i : String) :
    (lookupId m i).isSome = true ↔ i ∈ ids m := by
  induction m with
  | nil => simp [lookupId, ids]
  | cons x xs ih =>
    rw [lookupId_cons, show ids (x :: xs) = x.id :: ids xs from rfl, List.mem_cons]
    by_cases h : x.id = i
    · simp [h]
    · rw [if_neg h, ih]
      constructor
      · exact Or.inr
      · rintro (hh | hh)
        · exact absurd hh.symm h
        · exact hh

theorem find?_map_replace (m : List Listing) (l : Listing) (i : String)
    (hne : ¬ l.id = i) :
    ((m.map (fun x => if x.id == l.id then l else x)).find? (fun x => x.id == i))
      = m.find? (fun x => x.id == i) := by
  induction m with
  | nil => rfl
  | cons x xs ih =>
    by_cases hx : x.id = l.id
    · have h1 : ((if (x.id == l.id) = true then l else x).id == i) = false := by
        simp only [hx, beq_self_eq_true, if_true]
        simpa using hne
      have h2 : (x.id == i) = false := by
        rw [hx]
        simpa using hne
      simp only [List.map_cons, List.find?_cons, h1, h2]
      exact ih
    · by_cases hxi : x.id = i
      · have h1 : ((if (x.id == l.id) = true then l else x).id == i) = true := by
          have hb : (x.id == l.id) = false := by simpa using hx
          rw [hb]
          simp [hxi]
        have h2 : (x.id == i) = true := by simp [hxi]
        simp only [List.map_cons, List.find?_cons, h1, h2]
        simp [hx]
      · have h1 : ((if (x.id == l.id) = true then l else x).id == i) = false := by
          simp [hx, hxi]
        have h2 : (x.id == i) = false := by simp [hxi]
        simp only [List.map_cons, List.find?_cons, h1, h2]
        exact ih

theorem find?_map_replace_self (m : List Listing) (l : Listing)
    (hmem : l.id ∈ ids m) :
    ((m.map (fun x => if x.id == l.id then l else x)).find? (fun x => x.id == l.id))
      = some l := by
  induction m with
  | nil => simp [ids] at hmem
  | cons x xs ih =>
    by_cases hx : x.id = l.id
    · have h1 : ((if (x.id == l.id) = true then l else x).id == l.id) = true := by
        simp [hx]
      simp only [List.map_cons, List.find?_cons, h1]
      simp [hx]
    · have h1 : ((if (x.id == l.id) = true then l else x).id == l.id) = false := by
        simp [hx]
      have hmem' : l.id ∈ ids xs := by
        rw [show ids (x :: xs) = x.id :: ids xs from rfl, List.mem_cons] at hmem
        rcases hmem with hh | hh
        · exact absurd hh.symm hx
        · exact hh
      simp only [List.map_cons, List.find?_cons, h1]
      exact ih hmem'

theorem lookupId_insertListing (m : List Listing) (l : Listing) (i : String) :
    lookupId (insertListing m l) i = if l.id = i then some l else lookupId m i := by
  unfold insertListing
  by_cases hany : (m.any (fun x => x.id == l.id)) = true
  · rw [if_pos hany]
    by_cases hi : l.id = i
    · subst hi
      rw [if_pos rfl]
      exact find?_map_replace_self m l ((any_id_iff m l.id).1 hany)
    · rw [if_neg hi]
      exact find?_map_replace m l i hi
  · rw [if_neg hany]
    have hnm : l.id ∉ ids m := fun hmem => hany ((any_id_iff m l.id).2 hmem)
    rw [lookupId_append]
    by_cases hi : l.id = i
    · subst hi
      have hnone : lookupId m l.id = none := by
        cases hsome : lookupId m l.id with
        | none => rfl
        | some x =>
          exact absurd ((lookupId_isSome_iff m l.id).1 (by simp [hsome])) hnm
      rw [hnone, orElseO_none_left, if_pos rfl, lookupId_cons, if_pos rfl]
    · have hsingle : lookupId [l] i = none := by
        rw [lookupId_cons, if_neg hi]
        rfl
      rw [hsingle, orElseO_none_right, if_neg hi]

theorem ids_insertListing (m : List Listing) (l : Listing) :
    ids (insertListing m l)
      = if (m.any (fun x => x.id == l.id)) = true then ids m else ids m ++ [l.id] := by
  unfold insertListing
  by_cases hany : (m.any (fun x => x.id == l.id)) = true
  · rw [if_pos hany, if_pos hany]
    unfold ids
    rw [List.map_map]
    apply List.map_congr_left
    intro x _
    by_cases hx : x.id = l.id <;> simp [hx]
  · rw [if_neg hany, if_neg hany]
    simp [ids]

theorem nodup_ids_insertListing (m : List Listing) (l : Listing)
    (h : (ids m).Nodup) : (ids (insertListing m l)).Nodup := by
  rw [ids_insertListing]
  by_cases hany : (m.any (fun x => x.id == l.id)) = true
  · simpa [hany] using h
  · have hnm : l.id ∉ ids m := fun hmem => hany ((any_id_iff m l.id).2 hmem)
    simpa [hany, List.nodup_append, h] using hnm

theorem mem_ids_insertListing (m : List Listing) (l : Listing) (i : String)
    (h : i ∈ ids m) : i ∈ ids (insertListing m l) := by
  rw [ids_insertListing]
  by_cases hany : (m.any (fun x => x.id == l.id)) = true <;> simp [hany, h]

theorem lookupId_mergePage (p : List Listing) (m : List Listing) (i : String) :
    lookupId (mergePage m p) i = orElseO (lastWithId p i) (lookupId m i) := by
  induction p generalizing m with
  | nil => cases h : lookupId m i <;> simp [mergePage, lastWithId, orElseO, h]
  | cons l rest ih =>
    have hstep : mergePage m (l :: rest) = mergePage (insertListing m l) rest := rfl
    rw [hstep, ih, lookupId_insertListing, lastWithId]
    cases hlast : lastWithId rest i <;> by_cases h : l.id = i <;>
      simp [orElseO, h, hlast]

theorem nodup_ids_mergePage (p : List Listing) (m : List Listing)
    (h : (ids m).Nodup) : (ids (mergePage m p)).Nodup := by
  induction p generalizing m with
  | nil => exact h
  | cons l rest ih => exact ih (insertListing m l) (nodup_ids_insertListing m l h)

theorem lastWithId_append (a b : List Listing) (i : String) :
    lastWithId (a ++ b) i = orElseO (lastWithId b i) (lastWithId a i) := by
  induction a with
  | nil => rw [List.nil_append, lastWithId, orElseO_none_right]
  | cons x xs ih =>
    simp only [List.cons_append, lastWithId, List.append_eq]
    rw [ih, orElseO_assoc]

theorem lastWithId_isSome_iff (p : List Listing) (i : String) :
    (lastWithId p i).isSome = true ↔ i ∈ ids p := by
  induction p with
  | nil => simp [lastWithId, ids]
  | cons x xs ih =>
    simp only [lastWithId, show ids (x :: xs) = x.id :: ids xs from rfl, List.mem_cons]
    cases hlast : lastWithId xs i with
    | some y =>
      have hmem : i ∈ ids xs := ih.1 (by rw [hlast]; rfl)
      simp [orElseO, hmem]
    | none =>
      have hxs : i ∉ ids xs := fun hh => by
        rw [← ih, hlast] at hh
        simp at hh
      by_cases h : x.id = i
      · simp [orElseO, h]
      · rw [orElseO_none_left, if_neg h]
        simp only [Option.isSome_none, Bool.false_eq_true, false_iff]
        rintro (hh | hh)
        · exact h hh.symm
        · exact hxs hh

theorem lastWithId_isSome_of_mem (p : List Listing) (l : Listing) (h : l ∈ p) :
    (lastWithId p l.id).isSome = true := by
  rw [lastWithId_isSome_iff]
  exact List.mem_map_of_mem _ h

theorem lookupId_foldMerge (ps : List (List Listing)) (m : List Listing) (i : String) :
    lookupId (ps.foldl mergePage m) i
      = orElseO (lastWithId ps.flatten i) (lookupId m i) := by
  induction ps generalizing m with
  | nil => simp [lastWithId, orElseO_none_left]
  | cons p rest ih =>
    rw [List.foldl_cons, ih, List.flatten_cons, lastWithId_append, orElseO_assoc,
      lookupId_mergePage]

theorem nodup_ids_foldMerge (ps : List (List Listing)) (m : List Listing)
    (h : (ids m).Nodup) : (ids (ps.foldl mergePage m)).Nodup := by
  induction ps generalizing m with
  | nil => exact h
  | cons p rest ih => exact ih (mergePage m p) (nodup_ids_mergePage p m h)

theorem scrapeOffline_eq_foldMerge (sample : Nat → List Row) (n : Nat) :
    scrapeOffline sample n
      = ((List.range n).map (fun i => parse_listings (sample (i + 1)))).foldl mergePage [] := by
  rw [scrapeOffline, List.foldl_map]

theorem length_insertListing_of_mem (m : List Listing) (l : Listing)
    (h : l.id ∈ ids m) : (insertListing m l).length = m.length := by
  unfold insertListing
  rw [if_pos ((any_id_iff m l.id).2 h), List.length_map]

theorem length_mergePage_of_mem_ids (p : List Listing) (m : List Listing)
    (h : ∀ l ∈ p, l.id ∈ ids m) : (mergePage m p).length = m.length := by
  induction p generalizing m with
  | nil => rfl
  | cons l rest ih =>
    have hstep : mergePage m (l :: rest) = mergePage (insertListing m l) rest := rfl
    have hmem : ∀ x ∈ rest, x.id ∈ ids (insertListing m l) := fun x hx =>
      mem_ids_insertListing m l x.id (h x (List.mem_cons_of_mem l hx))
    rw [hstep, ih (insertListing m l) hmem,
      length_insertListing_of_mem m l (h l (List.mem_cons_self l rest))]

/-- All listings a network run processes, in processing order: the rows
each fetched body's parse yields, concatenated in merge order. -/
def processedNetListings (select : String → List Row) (bodies : List String) : List Listing :=
  (bodies.map (fun b => parse_listings (select b))).flatten

/-- C1: the final collection of every orchestration run holds exactly
one entry per listing id and last-write-wins by processing order.
Offline/sample path: the key sequence has no duplicates, the entry
stored under an id carries the field values of the last processed
listing with that id, and an id is present exactly when some processed
listing carried it; pages are processed in fixed index order and the
path is a pure function of the sample contents, so the result is
deterministic. Network path (batch or crawl alike): whenever the run
yields a collection, that collection has no duplicate keys and
satisfies the same last-write-wins characterisation with respect to
the fetched bodies in processing order. -/
theorem scrape_collection_dedup_lastWriteWins :
    (∀ (sample : Nat → List Row) (n : Nat),
      (ids (scrapeOffline sample n)).Nodup
      ∧ (∀ i, lookupId (scrapeOffline sample n) i
          = lastWithId (processedListings sample n) i)
      ∧ (∀ i, i ∈ ids (scrapeOffline sample n)
          ↔ i ∈ ids (processedListings sample n)))
    ∧ (∀ (select : String → List Row) (mode : Mode) (envs : List (Nat → Resp))
        (ls : List Listing), scrapeNet select mode envs = Except.ok ls →
      (ids ls).Nodup
      ∧ ∃ bodies, fetchAll mode envs = Except.ok bodies
          ∧ (∀ i, lookupId ls i = lastWithId (processedNetListings select bodies) i)
          ∧ (∀ i, i ∈ ids ls ↔ i ∈ ids (processedNetListings select bodies))) := by
  constructor
  · intro sample n
    have hfold := scrapeOffline_eq_foldMerge sample n
    refine ⟨?_, ?_, ?_⟩
    · rw [hfold]
      exact nodup_ids_foldMerge _ _ (by simp [ids])
    · intro i
      rw [hfold, lookupId_foldMerge, show lookupId [] i = none from rfl,
        orElseO_none_right]
      rfl
    · intro i
      rw [← lookupId_isSome_iff, ← lastWithId_isSome_iff, hfold, lookupId_foldMerge,
        show lookupId [] i = none from rfl, orElseO_none_right]
      rfl
  · intro select mode envs ls hok
    cases hfa : fetchAll mode envs with
    | error e =>
      simp [scrapeNet, hfa] at hok
    | ok bodies =>
      simp only [scrapeNet, hfa, Except.ok.injEq] at hok
      have hls : ls = (bodies.map (fun b => parse_listings (select b))).foldl mergePage [] := by
        rw [← hok, List.foldl_map]
      refine ⟨?_, bodies, rfl, ?_, ?_⟩
      · rw [hls]
        exact nodup_ids_foldMerge _ _ (by simp [ids])
      · intro i
        rw [hls, lookupId_foldMerge, show lookupId [] i = none from rfl,
          orElseO_none_right]
        rfl
      · intro i
        rw [← lookupId_isSome_iff, ← lastWithId_isSome_iff, hls, lookupId_foldMerge,
          show lookupId [] i = none from rfl, orElseO_none_right]
        rfl

/-- Environment for the C1 witness: every request succeeds with body
`"page"`. -/
def envOk : Nat → Resp :=
  fun _ => ⟨200, none, "page"⟩

/-- A concrete complete row, used by the C1 witness. -/
def netSampleRow : Row :=
  { title := some ⟨some "a/7?b", "T"⟩, price := some "£1", watch := none, img := some ⟨some "s"⟩ }

/-- Witness for C1: a concrete one-page network run yields exactly the
parsed row's listing as its collection, and that collection has no
duplicate ids. -/
theorem scrape_collection_dedup_lastWriteWins_witness :
    scrapeNet (fun _ => [netSampleRow]) Mode.batch [envOk]
        = Except.ok [listingOfRow netSampleRow]
    ∧ (ids [listingOfRow netSampleRow]).Nodup := by
  have h := scrape_collection_dedup_lastWriteWins.2 (fun _ => [netSampleRow])
    Mode.batch [envOk] [listingOfRow netSampleRow] (by decide)
  exact ⟨by decide, h.1⟩

/-- C6: parsing is total — it returns a listing sequence for every row
sequence, `[]` included — a row missing its title, price or image tag
contributes no listing, and a row missing only its watch tag is kept
with an empty `watch_count`. -/
theorem parse_listings_row_contract :
    parse_listings [] = []
    ∧ (∀ rows, parse_listings rows = (rows.filter keptRow).map listingOfRow)
    ∧ (∀ r, keptRow r = true → r.watch = none → (listingOfRow r).watch_count = "") := by
  refine ⟨rfl, ?_, ?_⟩
  · intro rows
    induction rows with
    | nil => rfl
    | cons r rest ih =>
      cases ht : r.title with
      | none => simp [parse_listings, keptRow, ht, ih]
      | some t =>
        cases hp : r.price with
        | none => simp [parse_listings, keptRow, ht, hp, ih]
        | some p =>
          cases him : r.img with
          | none => simp [parse_listings, keptRow, ht, hp, him, ih]
          | some im => simp [parse_listings, keptRow, listingOfRow, ht, hp, him, ih]
  · intro r _ hw
    simp [listingOfRow, rowListing, hw]

/-- A concrete row with title, price and image present and no watch tag,
used by the C6 witness. -/
def sampleKeptRow : Row :=
  { title := some ⟨some "a/7?b", "T"⟩, price := some "£1", watch := none, img := some ⟨some "s"⟩ }

/-- Witness for C6 at a concrete kept row lacking only its watch tag. -/
theorem parse_listings_row_contract_witness :
    parse_listings [sampleKeptRow]
      = ([sampleKeptRow].filter keptRow).map listingOfRow
    ∧ (listingOfRow sampleKeptRow).watch_count = "" :=
  ⟨parse_listings_row_contract.2.1 _, parse_listings_row_contract.2.2 _ rfl rfl⟩

/-- C8: merging the same page's parsed listings a second time yields a
collection of the same size with the same entry under every id. -/
theorem merge_page_idempotent (m : List Listing) (rows : List Row) :
    (mergePage (mergePage m (parse_listings rows)) (parse_listings rows)).length
      = (mergePage m (parse_listings rows)).length
    ∧ ∀ i, lookupId (mergePage (mergePage m (parse_listings rows)) (parse_listings rows)) i
        = lookupId (mergePage m (parse_listings rows)) i := by
  constructor
  · apply length_mergePage_of_mem_ids
    intro l hl
    rw [← lookupId_isSome_iff, lookupId_mergePage]
    have hs := lastWithId_isSome_of_mem (parse_listings rows) l hl
    cases hlast : lastWithId (parse_listings rows) l.id with
    | none => rw [hlast] at hs; simp at hs
    | some y => simp [orElseO, hlast]
  · intro i
    rw [lookupId_mergePage, lookupId_mergePage]
    cases hlast : lastWithId (parse_listings rows) i <;> simp [orElseO, hlast]

/-- C9: a row whose title anchor lacks an href, with title, price and
image present, parses to a listing whose url and id are both the empty
string; consequently across all pages such rows share the single key
`""`, the merged collection holds at most one entry with that id, and
the stored entry is the last-processed listing with empty id. -/
theorem missing_href_collapses (t : TitleTag) (p : String) (w : Option String)
    (im : ImgTag) (rest : List Row) (sample : Nat → List Row) (n : Nat)
    (ht : t.href = none) :
    parse_listings ({ title := some t, price := some p, watch := w, img := some im } :: rest)
      = rowListing t p w im :: parse_listings rest
    ∧ (rowListing t p w im).url = ""
    ∧ (rowListing t p w im).id = ""
    ∧ (scrapeOffline sample n).countP (fun x => x.id == "") ≤ 1
    ∧ lookupId (scrapeOffline sample n) ""
        = lastWithId (processedListings sample n) "" := by
  have hnd : (ids (scrapeOffline sample n)).Nodup := by
    rw [scrapeOffline_eq_foldMerge]
    exact nodup_ids_foldMerge _ _ (by simp [ids])
  refine ⟨rfl, ?_, ?_, ?_, ?_⟩
  · simp [rowListing, ht]
  · simp [rowListing, ht]
    decide
  · have hcount : (scrapeOffline sample n).countP (fun x => x.id == "")
        = List.count "" (ids (scrapeOffline sample n)) := by
      simp [ids, List.count, List.countP_map]
      rfl
    rw [hcount]
    exact List.nodup_iff_count_le_one.1 hnd ""
  · rw [scrapeOffline_eq_foldMerge, lookupId_foldMerge,
      show lookupId [] "" = none from rfl, orElseO_none_right]
    rfl

/-- Witness for C9 at a concrete href-less row. -/
theorem missing_href_collapses_witness :
    (rowListing ⟨none, "T"⟩ "£2" none ⟨some "img"⟩).url = ""
    ∧ (rowListing ⟨none, "T"⟩ "£2" none ⟨some "img"⟩).id = "" :=
  ⟨(missing_href_collapses ⟨none, "T"⟩ "£2" none ⟨some "img"⟩ [] (fun _ => []) 0 rfl).2.1,
   (missing_href_collapses ⟨none, "T"⟩ "£2" none ⟨some "img"⟩ [] (fun _ => []) 0 rfl).2.2.1⟩

theorem runFetchAux_success (mode : Mode) (env : Nat → Resp) (n fuel : Nat)
    (h429 : ¬ (env n).status = 429) (hst : (env n).status < 400) :
    runFetchAux mode env n (fuel + 1)
      = ⟨Except.ok (env n).body, 1, attemptAcquires mode, attemptAcquires mode, [], []⟩ := by
  simp [runFetchAux, h429, Nat.not_le.2 hst]

theorem runFetchAux_clientError (mode : Mode) (env : Nat → Resp) (n fuel : Nat)
    (h429 : ¬ (env n).status = 429) (hst : 400 ≤ (env n).status) :
    runFetchAux mode env n (fuel + 1)
      = ⟨Except.error (FetchErr.clientResponseError (env n).status), 1,
          attemptAcquires mode, attemptAcquires mode, [], []⟩ := by
  simp [runFetchAux, h429, hst]

theorem runFetchAux_valueError (mode : Mode) (env : Nat → Resp) (n fuel : Nat)
    (h429 : (env n).status = 429)
    (hw : pyInt ((env n).retryAfter.getD "60") = none) :
    runFetchAux mode env n (fuel + 1)
      = ⟨Except.error FetchErr.valueError, 1,
          attemptAcquires mode, attemptAcquires mode, [], []⟩ := by
  simp [runFetchAux, h429, hw]

theorem runFetchAux_exhaust_one (mode : Mode) (env : Nat → Resp) (n : Nat) (w : Int)
    (h429 : (env n).status = 429)
    (hw : pyInt ((env n).retryAfter.getD "60") = some w) :
    runFetchAux mode env n 1
      = ⟨Except.error FetchErr.retryError, 1,
          attemptAcquires mode, attemptAcquires mode, [w], []⟩ := by
  simp [runFetchAux, h429, hw]

theorem runFetchAux_rateLimited_step (mode : Mode) (env : Nat → Resp) (n fuel : Nat)
    (w : Int) (h429 : (env n).status = 429)
    (hw : pyInt ((env n).retryAfter.getD "60") = some w) (hfuel : ¬ fuel = 0) :
    runFetchAux mode env n (fuel + 1)
      = ⟨(runFetchAux mode env (n + 1) fuel).result,
          (runFetchAux mode env (n + 1) fuel).attemptsUsed + 1,
          attemptAcquires mode + (runFetchAux mode env (n + 1) fuel).acquires,
          attemptAcquires mode + (runFetchAux mode env (n + 1) fuel).schedules,
          w :: (runFetchAux mode env (n + 1) fuel).serverSleeps,
          waitExp n :: (runFetchAux mode env (n + 1) fuel).backoffs⟩ := by
  simp [runFetchAux, h429, hw, hfuel]

theorem runFetchAux_attempts_le (mode : Mode) (env : Nat → Resp) :
    ∀ fuel n, (runFetchAux mode env n fuel).attemptsUsed ≤ fuel := by
  intro fuel
  induction fuel with
  | zero => intro n; simp [runFetchAux]
  | succ f ih =>
    intro n
    by_cases h429 : (env n).status = 429
    · cases hw : pyInt ((env n).retryAfter.getD "60") with
      | none =>
        rw [runFetchAux_valueError mode env n f h429 hw]
        show 1 ≤ f + 1
        omega
      | some w =>
        by_cases hf : f = 0
        · subst hf
          rw [runFetchAux_exhaust_one mode env n w h429 hw]
        · rw [runFetchAux_rateLimited_step mode env n f w h429 hw hf]
          have := ih (n + 1)
          show (runFetchAux mode env (n + 1) f).attemptsUsed + 1 ≤ f + 1
          omega
    · by_cases hst : 400 ≤ (env n).status
      · rw [runFetchAux_clientError mode env n f h429 hst]
        show 1 ≤ f + 1
        omega
      · rw [runFetchAux_success mode env n f h429 (by omega)]
        show 1 ≤ f + 1
        omega

theorem runFetchAux_acquires_schedules (mode : Mode) (env : Nat → Resp) :
    ∀ fuel n,
      (runFetchAux mode env n fuel).acquires
          = attemptAcquires mode * (runFetchAux mode env n fuel).attemptsUsed
      ∧ (runFetchAux mode env n fuel).schedules
          = attemptAcquires mode * (runFetchAux mode env n fuel).attemptsUsed := by
  intro fuel
  induction fuel with
  | zero => intro n; simp [runFetchAux]
  | succ f ih =>
    intro n
    by_cases h429 : (env n).status = 429
    · cases hw : pyInt ((env n).retryAfter.getD "60") with
      | none => rw [runFetchAux_valueError mode env n f h429 hw]; simp
      | some w =>
        by_cases hf : f = 0
        · subst hf
          rw [runFetchAux_exhaust_one mode env n w h429 hw]; simp
        · rw [runFetchAux_rateLimited_step mode env n f w h429 hw hf]
          have := ih (n + 1)
          simp only []
          constructor
          · rw [this.1]; ring
          · rw [this.2]; ring
    · by_cases hst : 400 ≤ (env n).status
      · rw [runFetchAux_clientError mode env n f h429 hst]; simp
      · rw [runFetchAux_success mode env n f h429 (by omega)]; simp

theorem map_range_shift {α : Type _} (f : Nat → α) : ∀ (k n : Nat),
    (List.range (k + 1)).map (fun j => f (n + j))
      = f n :: (List.range k).map (fun j => f ((n + 1) + j)) := by
  intro k
  induction k with
  | zero =>
    intro n
    simp [List.range_succ]
  | succ k ih =>
    intro n
    have hidx : n + (k + 1) = (n + 1) + k := by omega
    rw [List.range_succ, List.map_append, ih n, List.range_succ, List.map_append]
    simp only [List.map_cons, List.map_nil, List.cons_append]
    rw [hidx]

theorem runFetchAux_chain_success (mode : Mode) (env : Nat → Resp) (w : Nat → Int) :
    ∀ (k n fuel : Nat), k < fuel →
      (∀ j, j < k → (env (n + j)).status = 429
        ∧ pyInt ((env (n + j)).retryAfter.getD "60") = some (w (n + j))) →
      ¬ (env (n + k)).status = 429 → (env (n + k)).status < 400 →
      runFetchAux mode env n fuel
        = ⟨Except.ok (env (n + k)).body, k + 1,
            (k + 1) * attemptAcquires mode, (k + 1) * attemptAcquires mode,
            (List.range k).map (fun j => w (n + j)),
            (List.range k).map (fun j => waitExp (n + j))⟩ := by
  intro k
  induction k with
  | zero =>
    intro n fuel hk hrl h429 hst
    obtain ⟨f, rfl⟩ : ∃ f, fuel = f + 1 := ⟨fuel - 1, by omega⟩
    rw [runFetchAux_success mode env n f (by simpa using h429) (by simpa using hst)]
    simp
  | succ k ih =>
    intro n fuel hk hrl h429 hst
    obtain ⟨f, rfl⟩ : ∃ f, fuel = f + 1 := ⟨fuel - 1, by omega⟩
    have h0 := hrl 0 (by omega)
    rw [runFetchAux_rateLimited_step mode env n f (w n) (by simpa using h0.1)
      (by simpa using h0.2) (by omega)]
    have hrl' : ∀ j, j < k → (env ((n + 1) + j)).status = 429
        ∧ pyInt ((env ((n + 1) + j)).retryAfter.getD "60") = some (w ((n + 1) + j)) := by
      intro j hj
      have hidx : (n + 1) + j = n + (j + 1) := by omega
      rw [hidx]
      exact hrl (j + 1) (by omega)
    have h429' : ¬ (env ((n + 1) + k)).status = 429 := by
      have hidx : (n + 1) + k = n + (k + 1) := by omega
      rw [hidx]; exact h429
    have hst' : (env ((n + 1) + k)).status < 400 := by
      have hidx : (n + 1) + k = n + (k + 1) := by omega
      rw [hidx]; exact hst
    rw [ih (n + 1) f (by omega) hrl' h429' hst']
    have hidx : (n + 1) + k = n + (k + 1) := by omega
    rw [hidx]
    simp only [FetchTrace.mk.injEq]
    exact ⟨trivial, trivial, by ring, by ring,
      (map_range_shift w k n).symm, (map_range_shift waitExp k n).symm⟩

theorem runFetchAux_chain_exhaust (mode : Mode) (env : Nat → Resp) (w : Nat → Int) :
    ∀ (fuel n : Nat), ¬ fuel = 0 →
      (∀ j, j < fuel → (env (n + j)).status = 429
        ∧ pyInt ((env (n + j)).retryAfter.getD "60") = some (w (n + j))) →
      runFetchAux mode env n fuel
        = ⟨Except.error FetchErr.retryError, fuel,
            fuel * attemptAcquires mode, fuel * attemptAcquires mode,
            (List.range fuel).map (fun j => w (n + j)),
            (List.range (fuel - 1)).map (fun j => waitExp (n + j))⟩ := by
  intro fuel
  induction fuel with
  | zero => intro n h; exact absurd rfl h
  | succ f ih =>
    intro n _ hrl
    by_cases hf : f = 0
    · subst hf
      have h0 := hrl 0 (by omega)
      rw [runFetchAux_exhaust_one mode env n (w n) (by simpa using h0.1)
        (by simpa using h0.2)]
      simp
      exact (map_range_shift w 0 n).symm
    · have h0 := hrl 0 (by omega)
      rw [runFetchAux_rateLimited_step mode env n f (w n) (by simpa using h0.1)
        (by simpa using h0.2) hf]
      have hrl' : ∀ j, j < f → (env ((n + 1) + j)).status = 429
          ∧ pyInt ((env ((n + 1) + j)).retryAfter.getD "60") = some (w ((n + 1) + j)) := by
        intro j hj
        have hidx : (n + 1) + j = n + (j + 1) := by omega
        rw [hidx]
        exact hrl (j + 1) (by omega)
      rw [ih (n + 1) hf hrl']
      obtain ⟨g, rfl⟩ : ∃ g, f = g + 1 := ⟨f - 1, by omega⟩
      simp only [FetchTrace.mk.injEq]
      exact ⟨trivial, trivial, by ring, by ring,
        (map_range_shift w (g + 1) n).symm, (map_range_shift waitExp g n).symm⟩

/-- C2: tenacity's `stop_after_attempt(5)` allows at most five attempts;
four rate-limited attempts followed by a success yield the fifth
response's body; five consecutive rate-limited attempts exhaust the
retries and fail fatally with `RetryError`; and a non-2xx status other
than 429 is not the retryable signal, so it fails on the first attempt
with no retry. -/
theorem fetch_retry_policy (mode : Mode) (env : Nat → Resp) :
    (runFetch mode env).attemptsUsed ≤ 5
    ∧ ((∀ k, 1 ≤ k → k ≤ 4 → (env k).status = 429
          ∧ (pyInt ((env k).retryAfter.getD "60")).isSome = true)
        → ¬ (env 5).status = 429 → (env 5).status < 400
        → (runFetch mode env).result = Except.ok (env 5).body
          ∧ (runFetch mode env).attemptsUsed = 5)
    ∧ ((∀ k, 1 ≤ k → k ≤ 5 → (env k).status = 429
          ∧ (pyInt ((env k).retryAfter.getD "60")).isSome = true)
        → (runFetch mode env).result = Except.error FetchErr.retryError
          ∧ (runFetch mode env).attemptsUsed = 5)
    ∧ (¬ (env 1).status = 429 → 400 ≤ (env 1).status
        → (runFetch mode env).result
            = Except.error (FetchErr.clientResponseError (env 1).status)
          ∧ (runFetch mode env).attemptsUsed = 1) := by
  have hval : ∀ k, (pyInt ((env k).retryAfter.getD "60")).isSome = true
      → pyInt ((env k).retryAfter.getD "60")
          = some ((pyInt ((env k).retryAfter.getD "60")).getD 0) := by
    intro k h
    cases hc : pyInt ((env k).retryAfter.getD "60") with
    | none => rw [hc] at h; simp at h
    | some v => simp [hc]
  refine ⟨runFetchAux_attempts_le mode env 5 1, ?_, ?_, ?_⟩
  · intro hrl h429 hst
    have hrl' : ∀ j, j < 4 → (env (1 + j)).status = 429
        ∧ pyInt ((env (1 + j)).retryAfter.getD "60")
            = some ((pyInt ((env (1 + j)).retryAfter.getD "60")).getD 0) := by
      intro j hj
      exact ⟨(hrl (1 + j) (by omega) (by omega)).1,
        hval (1 + j) (hrl (1 + j) (by omega) (by omega)).2⟩
    have h429' : ¬ (env (1 + 4)).status = 429 := h429
    have hst' : (env (1 + 4)).status < 400 := hst
    have hchain := runFetchAux_chain_success mode env
      (fun j => (pyInt ((env j).retryAfter.getD "60")).getD 0) 4 1 5 (by omega)
      hrl' h429' hst'
    constructor
    · show (runFetchAux mode env 1 5).result = _
      rw [hchain]
    · show (runFetchAux mode env 1 5).attemptsUsed = 5
      rw [hchain]
  · intro hrl
    have hrl' : ∀ j, j < 5 → (env (1 + j)).status = 429
        ∧ pyInt ((env (1 + j)).retryAfter.getD "60")
            = some ((pyInt ((env (1 + j)).retryAfter.getD "60")).getD 0) := by
      intro j hj
      exact ⟨(hrl (1 + j) (by omega) (by omega)).1,
        hval (1 + j) (hrl (1 + j) (by omega) (by omega)).2⟩
    have hchain := runFetchAux_chain_exhaust mode env
      (fun j => (pyInt ((env j).retryAfter.getD "60")).getD 0) 5 1 (by omega) hrl'
    constructor
    · show (runFetchAux mode env 1 5).result = _
      rw [hchain]
    · show (runFetchAux mode env 1 5).attemptsUsed = 5
      rw [hchain]
  · intro h429 hst
    have h : runFetchAux mode env 1 5
        = ⟨Except.error (FetchErr.clientResponseError (env 1).status), 1,
            attemptAcquires mode, attemptAcquires mode, [], []⟩ :=
      runFetchAux_clientError mode env 1 4 h429 hst
    constructor
    · show (runFetchAux mode env 1 5).result = _
      rw [h]
    · show (runFetchAux mode env 1 5).attemptsUsed = 1
      rw [h]

/-- Environment for the C2 witness: four rate-limited responses, then a
success whose body is `"B"`. -/
def env4RL : Nat → Resp :=
  fun k => if k ≤ 4 then ⟨429, none, ""⟩ else ⟨200, none, "B"⟩

/-- Witness for C2: the 4-rate-limits-then-success scenario returns the
fifth attempt's body. -/
theorem fetch_retry_policy_witness :
    (runFetch Mode.batch env4RL).result = Except.ok "B"
    ∧ (runFetch Mode.batch env4RL).attemptsUsed = 5 := by
  have hrl : ∀ k, 1 ≤ k → k ≤ 4 → (env4RL k).status = 429
      ∧ (pyInt ((env4RL k).retryAfter.getD "60")).isSome = true := by
    intro k h1 h4
    have he : env4RL k = ⟨429, none, ""⟩ := by simp [env4RL, h4]
    rw [he]
    exact ⟨rfl, by decide⟩
  exact (fetch_retry_policy Mode.batch env4RL).2.1 hrl (by decide) (by decide)

/-- Environment for the C3 counterexample: one rate-limited response,
then success. -/
def envC3 : Nat → Resp :=
  fun k => if k = 1 then ⟨429, none, "x"⟩ else ⟨200, none, "ok"⟩

/-- C3 counterexample: a crawl-mode call that retries once makes two
attempts and performs two semaphore acquisitions, not one — the
`rate_semaphore.acquire()` at line 62 sits inside the body that the
`@retry` decorator re-runs, so the internal retry loop acquires again. -/
theorem crawl_acquire_once_cex :
    (runFetch Mode.crawl envC3).attemptsUsed = 2
    ∧ ¬ (runFetch Mode.crawl envC3).acquires = 1 := by
  decide

/-- C3 amended: in crawl mode one permit is acquired per attempt of the
retry-wrapped call — so the number of acquisitions equals the number of
attempts, and is one exactly when no retry happened; in batch mode no
permit is ever acquired. -/
theorem crawl_acquire_per_attempt (env : Nat → Resp) :
    (runFetch Mode.crawl env).acquires = (runFetch Mode.crawl env).attemptsUsed
    ∧ (runFetch Mode.batch env).acquires = 0 := by
  constructor
  · show (runFetchAux Mode.crawl env 1 5).acquires
        = (runFetchAux Mode.crawl env 1 5).attemptsUsed
    rw [(runFetchAux_acquires_schedules Mode.crawl env 5 1).1]
    simp [attemptAcquires]
  · show (runFetchAux Mode.batch env 1 5).acquires = 0
    rw [(runFetchAux_acquires_schedules Mode.batch env 5 1).1]
    simp [attemptAcquires]

theorem zipWith_map_same {α β γ : Type _} (h : α → β → γ) (f : Nat → α) (g : Nat → β) :
    ∀ r : List Nat, List.zipWith h (r.map f) (r.map g) = r.map (fun j => h (f j) (g j)) := by
  intro r
  induction r with
  | nil => rfl
  | cons a t ih => simp [ih]

theorem map_add_comm_index {α : Type _} (f : Nat → α) (r : List Nat) :
    r.map (fun j => f (1 + j)) = r.map (fun j => f (j + 1)) := by
  apply List.map_congr_left
  intro j _
  exact congrArg f (by omega)

/-- C5: between attempts — never before the first — the fetcher waits
tenacity's exponential backoff `wait_exponential(multiplier=1, min=1,
max=60)`; a rate-limited attempt first sleeps the server-provided wait
(`60` when the Retry-After header is absent) before raising the
retryable signal, so the total delay separating attempt j from attempt
j+1 is that server sleep plus the exponential backoff. `w k` is the
parsed wait of the k-th response. -/
theorem fetch_backoff_compound (mode : Mode) (env : Nat → Resp) (w : Nat → Int)
    (n : Nat) (h1 : 1 ≤ n) (h5 : n ≤ 5)
    (hrl : ∀ k, 1 ≤ k → k < n → (env k).status = 429
      ∧ pyInt ((env k).retryAfter.getD "60") = some (w k))
    (hok : ¬ (env n).status = 429) (hst : (env n).status < 400) :
    (runFetch mode env).backoffs
        = (List.range (n - 1)).map (fun j => waitExp (j + 1))
    ∧ (runFetch mode env).serverSleeps
        = (List.range (n - 1)).map (fun j => w (j + 1))
    ∧ (runFetch mode env).backoffs.length = (runFetch mode env).attemptsUsed - 1
    ∧ (∀ j, waitExp j = max 1 (min (2 ^ (j - 1)) 60)
        ∧ 1 ≤ waitExp j ∧ waitExp j ≤ 60)
    ∧ List.zipWith (fun (a : Int) (b : Nat) => a + (b : Int))
        (runFetch mode env).serverSleeps (runFetch mode env).backoffs
        = (List.range (n - 1)).map (fun j => w (j + 1) + (waitExp (j + 1) : Int)) := by
  obtain ⟨k, rfl⟩ : ∃ k, n = k + 1 := ⟨n - 1, by omega⟩
  have hrl' : ∀ j, j < k → (env (1 + j)).status = 429
      ∧ pyInt ((env (1 + j)).retryAfter.getD "60") = some (w (1 + j)) := by
    intro j hj
    exact hrl (1 + j) (by omega) (by omega)
  have hok' : ¬ (env (1 + k)).status = 429 := by
    have hidx : 1 + k = k + 1 := by omega
    rw [hidx]; exact hok
  have hst' : (env (1 + k)).status < 400 := by
    have hidx : 1 + k = k + 1 := by omega
    rw [hidx]; exact hst
  have hchain := runFetchAux_chain_success mode env w k 1 5 (by omega) hrl' hok' hst'
  refine ⟨?_, ?_, ?_, ?_, ?_⟩
  · show (runFetchAux mode env 1 5).backoffs = _
    rw [hchain]
    show (List.range k).map (fun j => waitExp (1 + j))
        = (List.range k).map (fun j => waitExp (j + 1))
    rw [map_add_comm_index]
  · show (runFetchAux mode env 1 5).serverSleeps = _
    rw [hchain]
    show (List.range k).map (fun j => w (1 + j))
        = (List.range k).map (fun j => w (j + 1))
    rw [map_add_comm_index]
  · show (runFetchAux mode env 1 5).backoffs.length
        = (runFetchAux mode env 1 5).attemptsUsed - 1
    rw [hchain]
    show ((List.range k).map (fun j => waitExp (1 + j))).length = (k + 1) - 1
    simp
  · intro j
    exact ⟨rfl, le_max_left 1 _, max_le (by norm_num) (min_le_right _ 60)⟩
  · show List.zipWith (fun (a : Int) (b : Nat) => a + (b : Int))
        (runFetchAux mode env 1 5).serverSleeps (runFetchAux mode env 1 5).backoffs
        = (List.range k).map (fun j => w (j + 1) + (waitExp (j + 1) : Int))
    rw [hchain]
    show List.zipWith (fun (a : Int) (b : Nat) => a + (b : Int))
        ((List.range k).map (fun j => w (1 + j)))
        ((List.range k).map (fun j => waitExp (1 + j)))
        = (List.range k).map (fun j => w (j + 1) + (waitExp (j + 1) : Int))
    rw [zipWith_map_same]
    apply List.map_congr_left
    intro j _
    have hidx : 1 + j = j + 1 := by omega
    rw [hidx]

/-- Environment for the C5 witness: two rate-limited responses carrying
`Retry-After: 2`, then a success. -/
def env2RL : Nat → Resp :=
  fun k => if k ≤ 2 then ⟨429, some "2", ""⟩ else ⟨200, none, "B"⟩

/-- Witness for C5: the concrete run sleeps the server-provided 2 units
in each rate-limited attempt and backs off 1 then 2 units between the
three attempts. -/
theorem fetch_backoff_compound_witness :
    (runFetch Mode.batch env2RL).backoffs = [1, 2]
    ∧ (runFetch Mode.batch env2RL).serverSleeps = [2, 2] := by
  have hrl : ∀ k, 1 ≤ k → k < 3 → (env2RL k).status = 429
      ∧ pyInt ((env2RL k).retryAfter.getD "60") = some ((fun _ => (2 : Int)) k) := by
    intro k h1 h3
    have he : env2RL k = ⟨429, some "2", ""⟩ := by
      simp [env2RL, show k ≤ 2 from by omega]
    rw [he]
    refine ⟨rfl, ?_⟩
    show pyInt ((Resp.mk 429 (some "2") "").retryAfter.getD "60") = some 2
    decide
  have h := fetch_backoff_compound Mode.batch env2RL (fun _ => (2 : Int)) 3
    (by omega) (by omega) hrl (by decide) (by decide)
  exact ⟨by rw [h.1]; decide, by rw [h.2.1]; decide⟩

/-- Environment for C10: every response is a 429 whose Retry-After
header is present but not a decimal integer. -/
def envBadRA : Nat → Resp :=
  fun _ => ⟨429, some "soon", ""⟩

/-- C10: a 429 response whose Retry-After header is not a decimal
integer makes the unguarded `int(...)` at line 73 raise `ValueError`;
that is not the `RuntimeError` retry signal, so the call fails on its
first attempt with no retry, and `ValueError` is not among the types
`main`'s `except (aiohttp.ClientError, RuntimeError)` handles, so the
run crashes with the exception uncaught (still a nonzero exit). -/
theorem bad_retry_after_unguarded :
    pyInt "soon" = none
    ∧ (runFetch Mode.batch envBadRA).result = Except.error FetchErr.valueError
    ∧ (runFetch Mode.batch envBadRA).attemptsUsed = 1
    ∧ handledByMain FetchErr.valueError = false
    ∧ mainRun (fun _ => []) Mode.batch [envBadRA]
        = RunOutcome.crashed FetchErr.valueError
    ∧ exitCode (mainRun (fun _ => []) Mode.batch [envBadRA]) = 1 := by
  decide

/-- C4: the governor is `asyncio.Semaphore(3)` — three permits, and from
the fresh state three acquires succeed and a fourth blocks; acquire
either succeeds or blocks (`none`), it has no failure outcome, and it
blocks exactly while no permit is available; with all permits held, the
blocked acquire succeeds exactly once a pending release timer has
expired; a release scheduled at `t` contributes nothing to availability
at any time strictly before `t + 60`; and in batch mode the semaphore is
neither acquired nor released — the governor is not engaged. -/
theorem rate_governor_contract :
    initGov.avail = 3
    ∧ (∀ t, tryAcquire t initGov = some ⟨2, []⟩
        ∧ tryAcquire t ⟨2, []⟩ = some ⟨1, []⟩
        ∧ tryAcquire t ⟨1, []⟩ = some ⟨0, []⟩
        ∧ tryAcquire t ⟨0, []⟩ = none)
    ∧ (∀ t s, tryAcquire t s = none ↔ (fireDue t s).avail = 0)
    ∧ (∀ u r, tryAcquire u ⟨0, [r]⟩ = if r ≤ u then some ⟨0, []⟩ else none)
    ∧ (∀ s t u, u < t + cooldown
        → (fireDue u (scheduleRelease t s)).avail = (fireDue u s).avail)
    ∧ (∀ env, (runFetch Mode.batch env).acquires = 0
        ∧ (runFetch Mode.batch env).schedules = 0) := by
  refine ⟨rfl, ?_, ?_, ?_, ?_, ?_⟩
  · intro t
    refine ⟨?_, ?_, ?_, ?_⟩ <;> simp [tryAcquire, fireDue, initGov]
  · intro t s
    unfold tryAcquire
    by_cases h : (fireDue t s).avail = 0 <;> simp [h]
  · intro u r
    by_cases hr : r ≤ u
    · have hnr : ¬ u < r := by omega
      simp [tryAcquire, fireDue, hr, hnr]
    · have hlt : u < r := by omega
      simp [tryAcquire, fireDue, hr, hlt]
  · intro s t u h
    have hnr : ¬ t + cooldown ≤ u := by omega
    simp [fireDue, scheduleRelease, List.filter_append, hnr]
  · intro env
    have h := runFetchAux_acquires_schedules Mode.batch env 5 1
    constructor
    · show (runFetchAux Mode.batch env 1 5).acquires = 0
      rw [h.1]
      simp [attemptAcquires]
    · show (runFetchAux Mode.batch env 1 5).schedules = 0
      rw [h.2]
      simp [attemptAcquires]

/-- Witness for C4: a release scheduled at time 0 is still unavailable
at time 59 (strictly inside the 60-unit cooldown), and from the fresh
governor a fourth concurrent acquire blocks. -/
theorem rate_governor_contract_witness :
    (fireDue 59 (scheduleRelease 0 initGov)).avail = (fireDue 59 initGov).avail
    ∧ tryAcquire 7 ⟨0, []⟩ = none :=
  ⟨rate_governor_contract.2.2.2.2.1 initGov 0 59 (by decide),
    (rate_governor_contract.2.1 7).2.2.2⟩

theorem fetchAll_error_of_exists (mode : Mode) (envs : List (Nat → Resp))
    (hex : ∃ env ∈ envs, ∃ e, (runFetch mode env).result = Except.error e) :
    ∃ e, fetchAll mode envs = Except.error e
      ∧ ∃ env ∈ envs, (runFetch mode env).result = Except.error e := by
  induction envs with
  | nil => obtain ⟨env, h, _⟩ := hex; simp at h
  | cons env rest ih =>
    cases hr : (runFetch mode env).result with
    | error e =>
      exact ⟨e, by simp [fetchAll, hr], env, List.mem_cons_self env rest, hr⟩
    | ok body =>
      obtain ⟨env', hmem, e', he'⟩ := hex
      have hmem' : env' ∈ rest := by
        rcases List.mem_cons.1 hmem with h | h
        · rw [h] at he'; rw [hr] at he'; cases he'
        · exact h
      obtain ⟨e, hfa, env'', hm, hres⟩ := ih ⟨env', hmem', e', he'⟩
      exact ⟨e, by simp [fetchAll, hr, hfa], env'', List.mem_cons_of_mem _ hm, hres⟩

theorem fetchAll_ok_pointwise (mode : Mode) (envs : List (Nat → Resp))
    (bs : List String) (h : fetchAll mode envs = Except.ok bs) :
    ∀ env ∈ envs, ∃ b, (runFetch mode env).result = Except.ok b := by
  induction envs generalizing bs with
  | nil => intro env h'; simp at h'
  | cons env rest ih =>
    intro env' hmem
    cases hr : (runFetch mode env).result with
    | error e => simp [fetchAll, hr] at h
    | ok body =>
      cases hfa : fetchAll mode rest with
      | error e => simp [fetchAll, hr, hfa] at h
      | ok bs' =>
        rcases List.mem_cons.1 hmem with hh | hh
        · rw [hh]; exact ⟨body, hr⟩
        · exact ih bs' hfa env' hh

/-- C7: when any page's retry-wrapped fetch fails fatally, the run hands
nothing to `write_output`, exits nonzero, and the surfaced error is the
fetch error of a failing page; conversely listings are emitted only when
every page's fetch returned a body. -/
theorem run_all_or_nothing (select : String → List Row) (mode : Mode)
    (envs : List (Nat → Resp)) :
    ((∃ env ∈ envs, ∃ e, (runFetch mode env).result = Except.error e)
      → emittedListings (mainRun select mode envs) = none
        ∧ ¬ exitCode (mainRun select mode envs) = 0
        ∧ ∃ e, reportedError (mainRun select mode envs) = some e
            ∧ ∃ env ∈ envs, (runFetch mode env).result = Except.error e)
    ∧ (∀ ls, emittedListings (mainRun select mode envs) = some ls
        → ∀ env ∈ envs, ∃ b, (runFetch mode env).result = Except.ok b) := by
  constructor
  · intro hex
    obtain ⟨e, hfa, hwit⟩ := fetchAll_error_of_exists mode envs hex
    have hmain : mainRun select mode envs
        = if handledByMain e then RunOutcome.reported e else RunOutcome.crashed e := by
      rw [mainRun, scrapeNet, hfa]
    cases hb : handledByMain e <;>
      simp only [hmain, hb, if_true, if_false, Bool.false_eq_true, ite_false, ite_true] <;>
      exact ⟨rfl, by simp [exitCode], e, rfl, hwit⟩
  · intro ls hls env hmem
    cases hfa : fetchAll mode envs with
    | error e =>
      have hmain : mainRun select mode envs
          = if handledByMain e then RunOutcome.reported e else RunOutcome.crashed e := by
        rw [mainRun, scrapeNet, hfa]
      rw [hmain] at hls
      cases hb : handledByMain e <;> rw [hb] at hls <;> simp [emittedListings] at hls
    | ok bs => exact fetchAll_ok_pointwise mode envs bs hfa env hmem

/-- Environment for the C7 witness: a 500 response, a fatal non-retryable
status. -/
def env500 : Nat → Resp :=
  fun _ => ⟨500, none, ""⟩

/-- Witness for C7: with a single page answering 500, nothing is emitted
and the exit status is nonzero. -/
theorem run_all_or_nothing_witness :
    emittedListings (mainRun (fun _ => []) Mode.batch [env500]) = none
    ∧ ¬ exitCode (mainRun (fun _ => []) Mode.batch [env500]) = 0 := by
  have h := (run_all_or_nothing (fun _ => []) Mode.batch [env500]).1
    ⟨env500, List.mem_cons_self env500 [], FetchErr.clientResponseError 500, by decide⟩
  exact ⟨h.1, h.2.1⟩

end Webstore
